import Mathlib

/-!
Verification of the STM32F1 firmware extractor core.

The definitions below are a shallow embedding of `main.py` and `openocd.py`:
pure Python functions become Lean functions on `Nat`, the stateful
exception-generation and extraction code becomes explicit action traces, and
the external debug-probe session is abstracted as an oracle parameter.
Python's `int(math.log(n, 2))` is embedded as `Nat.log2 n`; the two agree for
every count the program can produce (`16 ≤ n ≤ 512`), where the floating-point
base-2 logarithm of `n` truncates to the floor of the exact logarithm.
-/

namespace Extractor

/-- Source constant `WORD_SIZE` from `main.py`. -/
def WORD_SIZE : Nat := 4

/-- Initial stack pointer value (`INITIAL_SP` in `main.py`). -/
def INITIAL_SP : Nat := 0x20000200

/-- Vector Table Offset Register address. -/
def VTOR_ADDR : Nat := 0xe000ed08

/-- Interrupt Control and State Register address. -/
def ICSR_ADDR : Nat := 0xe000ed04

/-- System Handler Control and State Register address. -/
def SHCSR_ADDR : Nat := 0xe000ed24

/-- NVIC Interrupt Set-Enable Registers base address. -/
def NVIC_ISER0_ADDR : Nat := 0xe000e100

/-- NVIC Interrupt Set-Pending Registers base address. -/
def NVIC_ISPR0_ADDR : Nat := 0xe000e200

/-- Debug Exception and Monitor Control Register address. -/
def DEMCR_ADDR : Nat := 0xe000edfc

/-- Memory region with eXecute Never property. -/
def MEM_XN_ADDR : Nat := 0xe0000000

/-- Scratch address of the `svc #0` instruction. -/
def SVC_INST_ADDR : Nat := 0x20000000

/-- Scratch address of the `nop` instruction. -/
def NOP_INST_ADDR : Nat := 0x20000002

/-- Scratch address of the `ldr r0, [r1, #0]` instruction. -/
def LDR_INST_ADDR : Nat := 0x20000004

/-- Scratch address of the undefined instruction. -/
def UNDEF_INST_ADDR : Nat := 0x20000006

/-- Inaccessible exception numbers (`INACCESSIBLE_EXC_NUMBERS` in `main.py`). -/
def INACCESSIBLE_EXC_NUMBERS : List Nat := [0, 1, 7, 8, 9, 10, 13]

/-- `align(address, base) = address - (address % base)` from `main.py`. -/
def align (address base : Nat) : Nat := address - address % base

/-- `table_size = 2 ** int(math.log(num_exceptions, 2))` from
`calculate_vtor_exc`: the largest power of two that is at most
`num_exceptions` (for `num_exceptions ≥ 1`). -/
def table_size (num_exceptions : Nat) : Nat := 2 ^ Nat.log2 num_exceptions

/-- The exception number computed by `calculate_vtor_exc` before any
wrap-around adjustment (line `exception_number = (address - vtor_address) //
WORD_SIZE`). -/
def raw_exception_number (address num_exceptions : Nat) : Nat :=
  (address - align address (table_size num_exceptions * WORD_SIZE)) / WORD_SIZE

/-- `calculate_vtor_exc(address, num_exceptions)` from `main.py`: returns the
relocated vector-table base and the exception number, applying the wrap-around
adjustment when the raw number is inaccessible, the table is misaligned with
respect to twice its size, and enough exceptions exist. -/
def calculate_vtor_exc (address num_exceptions : Nat) : Nat × Nat :=
  let ts := table_size num_exceptions
  let vtor_address := align address (ts * WORD_SIZE)
  let exception_number := (address - vtor_address) / WORD_SIZE
  if exception_number ∉ INACCESSIBLE_EXC_NUMBERS then
    (vtor_address, exception_number)
  else if vtor_address % (ts * 2 * WORD_SIZE) ≠ 0 ∧
      exception_number + ts < num_exceptions then
    (vtor_address, exception_number + ts)
  else
    (vtor_address, exception_number)

theorem align_eq_mul_div (a b : Nat) : align a b = b * (a / b) := by
  have h := Nat.div_add_mod a b
  unfold align
  omega

theorem align_mod (a b : Nat) : align a b % b = 0 := by
  rw [align_eq_mul_div]
  exact Nat.mul_mod_right b (a / b)

theorem align_le (a b : Nat) : align a b ≤ a := Nat.sub_le a (a % b)

theorem lt_align_add (a b : Nat) (hb : 0 < b) : a < align a b + b := by
  have h := Nat.mod_lt a hb
  unfold align
  omega

theorem table_size_pos (n : Nat) : 0 < table_size n :=
  Nat.pos_pow_of_pos _ (by omega)

theorem table_size_le (n : Nat) (h : 1 ≤ n) : table_size n ≤ n := by
  unfold table_size
  rw [Nat.log2_eq_log_two]
  exact Nat.pow_log_le_self 2 (by omega)

theorem table_size_greatest (n k : Nat) (h : 2 ^ k ≤ n) :
    2 ^ k ≤ table_size n := by
  unfold table_size
  rw [Nat.log2_eq_log_two]
  have hn : n ≠ 0 := by
    have : 1 ≤ 2 ^ k := Nat.one_le_two_pow
    omega
  exact Nat.pow_le_pow_right (by omega)
    ((Nat.pow_le_iff_le_log (by omega) hn).mp h)

theorem calculate_vtor_exc_eq (address n : Nat) :
    calculate_vtor_exc address n =
      if raw_exception_number address n ∉ INACCESSIBLE_EXC_NUMBERS then
        (align address (table_size n * WORD_SIZE), raw_exception_number address n)
      else if align address (table_size n * WORD_SIZE) % (table_size n * 2 * WORD_SIZE) ≠ 0 ∧
          raw_exception_number address n + table_size n < n then
        (align address (table_size n * WORD_SIZE),
          raw_exception_number address n + table_size n)
      else
        (align address (table_size n * WORD_SIZE), raw_exception_number address n) :=
  rfl

theorem calculate_vtor_exc_fst (address n : Nat) :
    (calculate_vtor_exc address n).1 = align address (table_size n * WORD_SIZE) := by
  rw [calculate_vtor_exc_eq]
  split
  · rfl
  · split <;> rfl

theorem raw_exception_number_lt (address n : Nat) :
    raw_exception_number address n < table_size n := by
  unfold raw_exception_number
  have hts : 0 < table_size n := table_size_pos n
  have h1 : address - align address (table_size n * WORD_SIZE)
      = address % (table_size n * WORD_SIZE) := by
    have hle := Nat.mod_le address (table_size n * WORD_SIZE)
    unfold align
    omega
  rw [h1]
  have hpos : 0 < table_size n * WORD_SIZE := by
    unfold WORD_SIZE
    omega
  have hmod : address % (table_size n * WORD_SIZE) < table_size n * WORD_SIZE :=
    Nat.mod_lt address hpos
  have h4 : (0 : Nat) < WORD_SIZE := by unfold WORD_SIZE; omega
  rw [Nat.div_lt_iff_lt_mul h4]
  unfold WORD_SIZE at *
  omega

theorem calculate_vtor_exc_snd (address n : Nat) :
    (calculate_vtor_exc address n).2 = raw_exception_number address n ∨
    (calculate_vtor_exc address n).2
      = raw_exception_number address n + table_size n := by
  rw [calculate_vtor_exc_eq]
  split
  · left; rfl
  · split
    · right; rfl
    · left; rfl

/-- C1: for every address and exception count `N ≥ 1`, the Mapper's table
size is the largest power of two at most `N`, the returned vector-table base
is the address rounded down to a multiple of `tableSize * 4` (the greatest
such multiple not exceeding the address), and the raw exception number is
`(address - vectorTableBase) / 4`; when the raw number is accessible it is
returned unchanged. -/
theorem C1_mapper_base_and_raw (address N : Nat) (h : 1 ≤ N) :
    (table_size N ≤ N ∧ (∃ k, table_size N = 2 ^ k) ∧
      (∀ k, 2 ^ k ≤ N → 2 ^ k ≤ table_size N)) ∧
    ((calculate_vtor_exc address N).1 % (table_size N * 4) = 0 ∧
      (calculate_vtor_exc address N).1 ≤ address ∧
      address < (calculate_vtor_exc address N).1 + table_size N * 4) ∧
    raw_exception_number address N
      = (address - (calculate_vtor_exc address N).1) / 4 ∧
    (raw_exception_number address N ∉ INACCESSIBLE_EXC_NUMBERS →
      (calculate_vtor_exc address N).2 = raw_exception_number address N) := by
  have hw : WORD_SIZE = 4 := rfl
  have hfst := calculate_vtor_exc_fst address N
  have hts : 0 < table_size N := table_size_pos N
  refine ⟨⟨table_size_le N h, ⟨Nat.log2 N, rfl⟩, fun k hk => table_size_greatest N k hk⟩, ?_, ?_, ?_⟩
  · rw [hfst, ← hw]
    refine ⟨align_mod address (table_size N * WORD_SIZE), align_le _ _, ?_⟩
    exact lt_align_add address (table_size N * WORD_SIZE)
      (by rw [hw]; omega)
  · rw [hfst]
    rfl
  · intro hn
    rw [calculate_vtor_exc_eq, if_pos hn]

/-- Witness for C1 at `address = 0x20`, `N = 16`. -/
theorem C1_mapper_base_and_raw_witness :
    (table_size 16 ≤ 16 ∧ (∃ k, table_size 16 = 2 ^ k) ∧
      (∀ k, 2 ^ k ≤ 16 → 2 ^ k ≤ table_size 16)) ∧
    ((calculate_vtor_exc 0x20 16).1 % (table_size 16 * 4) = 0 ∧
      (calculate_vtor_exc 0x20 16).1 ≤ 0x20 ∧
      0x20 < (calculate_vtor_exc 0x20 16).1 + table_size 16 * 4) ∧
    raw_exception_number 0x20 16
      = (0x20 - (calculate_vtor_exc 0x20 16).1) / 4 ∧
    (raw_exception_number 0x20 16 ∉ INACCESSIBLE_EXC_NUMBERS →
      (calculate_vtor_exc 0x20 16).2 = raw_exception_number 0x20 16) :=
  C1_mapper_base_and_raw 0x20 16 (by omega)

theorem sub_align_eq_mod (a b : Nat) : a - align a b = a % b := by
  have hle := Nat.mod_le a b
  unfold align
  omega

/-- C2: the Mapper wraps the exception number exactly when the raw number is
in the inaccessible set `{0, 1, 7, 8, 9, 10, 13}`, the vector-table base is
not aligned to twice the table size (times 4), and `raw + tableSize` is below
the exception count; the wrapped number `raw + tableSize` is returned as
final with no second wrap attempt, and in every other case the raw number is
returned unchanged. -/
theorem C2_wrap_exactly_once (address N : Nat) :
    (calculate_vtor_exc address N).2 =
      if raw_exception_number address N ∈ ([0, 1, 7, 8, 9, 10, 13] : List Nat) ∧
          (calculate_vtor_exc address N).1 % (table_size N * 2 * 4) ≠ 0 ∧
          raw_exception_number address N + table_size N < N then
        raw_exception_number address N + table_size N
      else
        raw_exception_number address N := by
  rw [calculate_vtor_exc_fst, calculate_vtor_exc_eq]
  simp only [INACCESSIBLE_EXC_NUMBERS, WORD_SIZE]
  split_ifs <;> first | rfl | tauto

/-- C3: the Mapper's returned vector-table base is always a multiple of
`tableSize * 4` and the returned exception number always lies in
`[0, 2 * tableSize)`. -/
theorem C3_result_invariant (address N : Nat) (hN : 1 ≤ N) :
    (calculate_vtor_exc address N).1 % (table_size N * 4) = 0 ∧
    (calculate_vtor_exc address N).2 < 2 * table_size N := by
  constructor
  · rw [calculate_vtor_exc_fst]
    have hm := align_mod address (table_size N * WORD_SIZE)
    simpa [WORD_SIZE] using hm
  · have hraw := raw_exception_number_lt address N
    rcases calculate_vtor_exc_snd address N with h2 | h2 <;> rw [h2] <;> omega

/-- Witness for C3 at `address = 0x44`, `N = 23`. -/
theorem C3_result_invariant_witness :
    (calculate_vtor_exc 0x44 23).1 % (table_size 23 * 4) = 0 ∧
    (calculate_vtor_exc 0x44 23).2 < 2 * table_size 23 :=
  C3_result_invariant 0x44 23 (by omega)

/-- C10: for word-aligned addresses and `N ≥ 16`, the Mapper's output decodes
back to the requested address: the base plus four times the raw exception
number is the address, the returned number is the raw number or exactly the
raw number plus the table size (after a wrap), and in either case the base
plus four times the returned number reduced modulo the table size is the
address. -/
theorem C10_decode_back (address N : Nat) (h4 : address % 4 = 0)
    (hN : 16 ≤ N) :
    (calculate_vtor_exc address N).1 + 4 * raw_exception_number address N
      = address ∧
    ((calculate_vtor_exc address N).2 = raw_exception_number address N ∨
      (calculate_vtor_exc address N).2
        = raw_exception_number address N + table_size N) ∧
    (calculate_vtor_exc address N).1
      + 4 * ((calculate_vtor_exc address N).2 % table_size N) = address := by
  have hw : WORD_SIZE = 4 := rfl
  have hfst := calculate_vtor_exc_fst address N
  have hsub := sub_align_eq_mod address (table_size N * WORD_SIZE)
  have hdvd4 : (4 : Nat) ∣ address % (table_size N * WORD_SIZE) := by
    refine (Nat.dvd_mod_iff ⟨table_size N, by rw [hw]; ring⟩).mpr ?_
    exact Nat.dvd_of_mod_eq_zero h4
  have hle := align_le address (table_size N * WORD_SIZE)
  have hmain : (calculate_vtor_exc address N).1
      + 4 * raw_exception_number address N = address := by
    rw [hfst]
    unfold raw_exception_number
    simp only [WORD_SIZE] at hsub hdvd4 ⊢
    rw [hsub, Nat.mul_div_cancel' hdvd4]
    have := Nat.mod_le address (table_size N * 4)
    unfold align
    omega
  have hraw := raw_exception_number_lt address N
  refine ⟨hmain, calculate_vtor_exc_snd address N, ?_⟩
  rcases calculate_vtor_exc_snd address N with h2 | h2 <;> rw [h2]
  · rw [Nat.mod_eq_of_lt hraw]
    exact hmain
  · rw [Nat.add_mod_right, Nat.mod_eq_of_lt hraw]
    exact hmain

/-- Witness for C10 at `address = 8`, `N = 16`. -/
theorem C10_decode_back_witness :
    (calculate_vtor_exc 8 16).1 + 4 * raw_exception_number 8 16 = 8 ∧
    ((calculate_vtor_exc 8 16).2 = raw_exception_number 8 16 ∨
      (calculate_vtor_exc 8 16).2
        = raw_exception_number 8 16 + table_size 16) ∧
    (calculate_vtor_exc 8 16).1
      + 4 * ((calculate_vtor_exc 8 16).2 % table_size 16) = 8 :=
  C10_decode_back 8 16 (by omega) (by omega)

/-- `recover_pc` from `main.py`, as a pure function of the two register
values read back from the probe session: extract the EPSR.T bit (PSR bit 24)
and `or` it into the PC value. -/
def recover_pc (pc xpsr : Nat) : Nat :=
  let t_bit := (xpsr >>> 24) &&& 0x1
  pc ||| t_bit

/-- Counterexample to C4 as stated: at `pc = 1`, `xpsr = 0` the recovered
value has bit 0 set although PSR bit 24 is clear, because `pc ||| t_bit`
cannot clear a bit that is already set in PC. -/
theorem C4_counterexample :
    ¬ ((recover_pc 1 0).testBit 0 = Nat.testBit 0 24) := by decide

/-- C4 (amended): for every 32-bit PC value with bit 0 clear (as the hardware
delivers it, having stripped the Thumb bit) and every 32-bit PSR value, the
recovered value has bit 0 equal to PSR bit 24 (EPSR.T) and bits 1 through 31
equal to the corresponding bits of PC. -/
theorem C4_thumb_bit_amended (pc xpsr : Nat) (hpc : pc < 2 ^ 32)
    (hpsr : xpsr < 2 ^ 32) (heven : pc % 2 = 0) :
    ((recover_pc pc xpsr).testBit 0 = xpsr.testBit 24) ∧
    (∀ i, 1 ≤ i → i < 32 →
      (recover_pc pc xpsr).testBit i = pc.testBit i) := by
  unfold recover_pc
  constructor
  · have h0 : pc.testBit 0 = false := by
      rw [Nat.testBit_zero]
      simp [heven]
    rw [Nat.testBit_or, h0, Bool.false_or, Nat.testBit_and]
    simp [Nat.testBit_shiftRight]
  · intro i h1 h2
    have hle : (xpsr >>> 24) &&& 0x1 ≤ 0x1 := Nat.and_le_right
    have hlt : (xpsr >>> 24) &&& 0x1 < 2 ^ i := by
      have h2i : (2 : Nat) ≤ 2 ^ i := by
        calc (2 : Nat) = 2 ^ 1 := rfl
        _ ≤ 2 ^ i := Nat.pow_le_pow_right (by omega) h1
      omega
    rw [Nat.testBit_or, Nat.testBit_lt_two_pow hlt, Bool.or_false]

/-- Witness for the amended C4 at `pc = 0x100`, `xpsr = 0x01000000`. -/
theorem C4_thumb_bit_amended_witness :
    ((recover_pc 0x100 0x01000000).testBit 0
      = Nat.testBit 0x01000000 24) ∧
    (∀ i, 1 ≤ i → i < 32 →
      (recover_pc 0x100 0x01000000).testBit i = Nat.testBit 0x100 i) :=
  C4_thumb_bit_amended 0x100 0x01000000 (by decide) (by decide) (by decide)

/-- The loop body of `determine_num_ext_interrupts` from `main.py`, with the
hardware abstracted as `psr : Nat → Nat` giving the PSR value read back after
pending external interrupt line `i` and stepping. `i` is the current line,
`fuel` the remaining iterations of `range(0, 496)`, `count` the confirmed
lines so far; the loop breaks when the low 9 bits of PSR differ from
`i + 16`. -/
def probe_from (psr : Nat → Nat) : Nat → Nat → Nat → Nat
  | _, 0, count => count
  | i, fuel + 1, count =>
    if psr i &&& 0x1ff ≠ i + 16 then count
    else probe_from psr (i + 1) fuel (count + 1)

/-- `determine_num_ext_interrupts` from `main.py`: probe lines 0 to 495 in
order and return the number of consecutively confirmed lines. -/
def determine_num_ext_interrupts (psr : Nat → Nat) : Nat :=
  probe_from psr 0 496 0

theorem probe_from_spec (psr : Nat → Nat) :
    ∀ fuel i count, count ≤ probe_from psr i fuel count ∧
      probe_from psr i fuel count ≤ count + fuel ∧
      (∀ j, j < probe_from psr i fuel count - count →
        psr (i + j) &&& 0x1ff = (i + j) + 16) ∧
      (probe_from psr i fuel count < count + fuel →
        ¬ (psr (i + (probe_from psr i fuel count - count)) &&& 0x1ff
            = (i + (probe_from psr i fuel count - count)) + 16)) := by
  intro fuel
  induction fuel with
  | zero =>
    intro i count
    refine ⟨Nat.le_refl _, by simp [probe_from], ?_, ?_⟩
    · intro j hj
      simp [probe_from] at hj
    · intro hlt
      simp [probe_from] at hlt
  | succ fuel ih =>
    intro i count
    by_cases h : psr i &&& 0x1ff = i + 16
    · have hr : probe_from psr i (fuel + 1) count
          = probe_from psr (i + 1) fuel (count + 1) := by
        simp [probe_from, h]
      obtain ⟨ih1, ih2, ih3, ih4⟩ := ih (i + 1) (count + 1)
      rw [hr]
      refine ⟨by omega, by omega, ?_, ?_⟩
      · intro j hj
        cases j with
        | zero => simpa using h
        | succ j =>
          have hc := ih3 j (by omega)
          have heq : i + (j + 1) = (i + 1) + j := by omega
          rw [heq]
          exact hc
      · intro hlt
        set r := probe_from psr (i + 1) fuel (count + 1) with hrdef
        have hlt2 : r < (count + 1) + fuel := by omega
        have hstop := ih4 hlt2
        have heq : i + (r - count) = (i + 1) + (r - (count + 1)) := by omega
        rw [heq]
        exact hstop
    · have hr : probe_from psr i (fuel + 1) count = count := by
        simp [probe_from, h]
      rw [hr]
      refine ⟨Nat.le_refl _, by omega, ?_, ?_⟩
      · intro j hj
        omega
      · intro _
        simpa using h

/-- C6: the Prober returns the length of the longest run of consecutive
confirmed external interrupt lines starting at line 0 — line `i` is confirmed
exactly when the post-step PSR low 9 bits equal `i + 16`; every line below
the result is confirmed, the loop stops at the first mismatch, a gap at line
`k` yields exactly `k` regardless of lines beyond `k`, and the result never
exceeds the architectural ceiling of 496. -/
theorem C6_prober_longest_run (psr : Nat → Nat) :
    determine_num_ext_interrupts psr ≤ 496 ∧
    (∀ i, i < determine_num_ext_interrupts psr →
      psr i &&& 0x1ff = i + 16) ∧
    (determine_num_ext_interrupts psr < 496 →
      ¬ (psr (determine_num_ext_interrupts psr) &&& 0x1ff
          = determine_num_ext_interrupts psr + 16)) ∧
    (∀ k, k < 496 → (∀ i, i < k → psr i &&& 0x1ff = i + 16) →
      ¬ (psr k &&& 0x1ff = k + 16) →
      determine_num_ext_interrupts psr = k) := by
  obtain ⟨h1, h2, h3, h4⟩ := probe_from_spec psr 496 0 0
  simp only [Nat.zero_add, Nat.sub_zero] at h2 h3 h4
  unfold determine_num_ext_interrupts
  refine ⟨h2, h3, h4, ?_⟩
  intro k hk hconf hgap
  rcases Nat.lt_trichotomy (probe_from psr 0 496 0) k with hlt | heq | hgt
  · exact absurd (hconf _ hlt) (h4 (by omega))
  · exact heq
  · exact absurd (h3 k hgt) hgap

/-- Witness for C6: a device implementing exactly lines 0, 1, 2 yields
count 3. -/
theorem C6_prober_longest_run_witness :
    determine_num_ext_interrupts (fun i => if i < 3 then i + 16 else 0) = 3 :=
  (C6_prober_longest_run (fun i => if i < 3 then i + 16 else 0)).2.2.2 3
    (by omega) (by decide) (by decide)

/-- The processor register identifiers from `main.py` (`class Register`):
R0 to R12, SP, LR, PC and the combined PSR. -/
inductive Register where
  | R0 | R1 | R2 | R3 | R4 | R5 | R6 | R7 | R8 | R9 | R10 | R11 | R12
  | SP | LR | PC | PSR
deriving DecidableEq

/-- One observable side effect issued to the debug probe session by
`generate_exception`. -/
inductive Action where
  | writeMem (address : Nat) (data : List Nat) (word_length : Nat)
  | writeReg (reg : Register) (value : Nat)
  | sendCmd (cmd : String)
deriving DecidableEq

/-- The per-exception-number branch of `generate_exception` in `main.py`:
the memory writes the branch performs immediately, and the entries it inserts
into the `registers` dict in insertion order. `none` is the `sys.exit`
branch for unhandled numbers. -/
def branch_config (exception_number : Nat) :
    Option (List (Nat × Nat) × List (Register × Nat)) :=
  if exception_number = 2 then
    some ([(ICSR_ADDR, 1 <<< 31)], [(Register.PC, NOP_INST_ADDR)])
  else if exception_number = 3 then
    some ([], [(Register.PC, UNDEF_INST_ADDR)])
  else if exception_number = 4 then
    some ([(SHCSR_ADDR, 0x10000)], [(Register.PC, MEM_XN_ADDR)])
  else if exception_number = 5 then
    some ([(SHCSR_ADDR, 0x20000)],
      [(Register.PC, LDR_INST_ADDR), (Register.R6, 0xffffff00)])
  else if exception_number = 6 then
    some ([(SHCSR_ADDR, 0x40000)], [(Register.PC, UNDEF_INST_ADDR)])
  else if exception_number = 11 then
    some ([], [(Register.PC, SVC_INST_ADDR)])
  else if exception_number = 12 then
    some ([(DEMCR_ADDR, 1 <<< 17)], [(Register.PC, NOP_INST_ADDR)])
  else if exception_number = 14 then
    some ([(ICSR_ADDR, 1 <<< 28)], [(Register.PC, NOP_INST_ADDR)])
  else if exception_number = 15 then
    some ([(ICSR_ADDR, 1 <<< 26)], [(Register.PC, NOP_INST_ADDR)])
  else if 16 ≤ exception_number then
    let ext_interrupt_number := exception_number - 16
    let register_offset := (ext_interrupt_number / 32) * WORD_SIZE
    let value := 1 <<< (ext_interrupt_number % 32)
    some ([(NVIC_ISER0_ADDR + register_offset, value),
           (NVIC_ISPR0_ADDR + register_offset, value)],
      [(Register.PC, NOP_INST_ADDR)])
  else
    none

/-- `generate_exception(openocd, vt_address, exception_number)` from
`main.py`, as the trace of commands it sends to the probe: a halting reset,
the VTOR relocation, the branch's memory writes, the deferred register
writes (dict insertion order, then the Thumb-mode PSR and the fixed SP), and
one single step. The `sys.exit` call on an unhandled number becomes
`Except.error` with the same message. -/
def generate_exception (vt_address exception_number : Nat) :
    Except String (List Action) :=
  match branch_config exception_number with
  | none => Except.error
      ( "Exception number " ++ toString exception_number ++ " not handled")
  | some (mem_writes, branch_registers) => Except.ok
      ([Action.sendCmd "reset halt",
        Action.writeMem VTOR_ADDR [vt_address] 32]
        ++ mem_writes.map (fun mw => Action.writeMem mw.1 [mw.2] 32)
        ++ (branch_registers
            ++ [(Register.PSR, 0x01000000), (Register.SP, INITIAL_SP)]).map
            (fun rv => Action.writeReg rv.1 rv.2)
        ++ [Action.sendCmd "step"])

/-- Whether an action is the single-step command. -/
def isStep : Action → Bool
  | Action.sendCmd c => c == "step"
  | _ => false

/-- The completed-recipe shape of an Exciter trace: it starts with a halting
reset, relocates VTOR to the requested base as its second command, at some
point writes the Thumb-mode PSR value and the fixed safe SP, and issues
exactly one single step, as the final command. -/
def trace_ok (vt_address : Nat) (t : List Action) : Prop :=
  t.head? = some (Action.sendCmd "reset halt") ∧
  t.get? 1 = some (Action.writeMem VTOR_ADDR [vt_address] 32) ∧
  Action.writeReg Register.PSR 0x01000000 ∈ t ∧
  Action.writeReg Register.SP INITIAL_SP ∈ t ∧
  (t.filter isStep).length = 1 ∧
  t.getLast? = some (Action.sendCmd "step")

theorem branch_config_ext (n : Nat) (h : 16 ≤ n) :
    branch_config n
      = some ([(NVIC_ISER0_ADDR + ((n - 16) / 32) * WORD_SIZE,
                1 <<< ((n - 16) % 32)),
               (NVIC_ISPR0_ADDR + ((n - 16) / 32) * WORD_SIZE,
                1 <<< ((n - 16) % 32))],
              [(Register.PC, NOP_INST_ADDR)]) := by
  unfold branch_config
  split_ifs <;> first | omega | rfl

theorem generate_exception_ext (vt n : Nat) (h : 16 ≤ n) :
    generate_exception vt n = Except.ok
      [Action.sendCmd "reset halt",
       Action.writeMem VTOR_ADDR [vt] 32,
       Action.writeMem (NVIC_ISER0_ADDR + ((n - 16) / 32) * WORD_SIZE)
         [1 <<< ((n - 16) % 32)] 32,
       Action.writeMem (NVIC_ISPR0_ADDR + ((n - 16) / 32) * WORD_SIZE)
         [1 <<< ((n - 16) % 32)] 32,
       Action.writeReg Register.PC NOP_INST_ADDR,
       Action.writeReg Register.PSR 0x01000000,
       Action.writeReg Register.SP INITIAL_SP,
       Action.sendCmd "step"] := by
  unfold generate_exception
  rw [branch_config_ext n h]
  rfl

/-- C7: the Exciter aborts with the fatal configuration error exactly for
numbers outside its recipe table (below 16 and not one of
2, 3, 4, 5, 6, 11, 12, 14, 15); for every number in the table, including all
numbers at least 16, it instead returns a complete recipe trace: reset, VTOR
relocation, the per-exception configuration, the Thumb-mode PSR write, the
fixed safe SP write, and exactly one single step. -/
theorem C7_exciter_abort_or_recipe (vt n : Nat) :
    (n < 16 ∧ n ∉ ([2, 3, 4, 5, 6, 11, 12, 14, 15] : List Nat) →
      generate_exception vt n = Except.error
        ( "Exception number " ++ toString n ++ " not handled")) ∧
    (n ∈ ([2, 3, 4, 5, 6, 11, 12, 14, 15] : List Nat) ∨ 16 ≤ n →
      ∃ t, generate_exception vt n = Except.ok t ∧ trace_ok vt t) := by
  constructor
  · rintro ⟨h16, hnot⟩
    interval_cases n <;> first | (exact absurd (by decide) hnot) | rfl
  · intro h
    by_cases h16 : 16 ≤ n
    · refine ⟨_, generate_exception_ext vt n h16, ?_⟩
      unfold trace_ok
      exact ⟨rfl, rfl, by simp, by simp, rfl, rfl⟩
    · have hmem : n ∈ ([2, 3, 4, 5, 6, 11, 12, 14, 15] : List Nat) := by
        rcases h with h | h
        · exact h
        · omega
      fin_cases hmem <;>
        · refine ⟨_, rfl, ?_⟩
          unfold trace_ok
          exact ⟨rfl, rfl, by simp, by simp, rfl, rfl⟩

/-- Witness for C7: exception number 11 (SVCall) yields a complete recipe
trace. -/
theorem C7_exciter_abort_or_recipe_witness :
    ∃ t, generate_exception 0x20000000 11 = Except.ok t ∧
      trace_ok 0x20000000 t :=
  (C7_exciter_abort_or_recipe 0x20000000 11).2 (Or.inl (by decide))

/-- Value of one hexadecimal digit character. -/
def hex_digit_val (c : Char) : Nat :=
  if c.isDigit then c.toNat - 48
  else if c.isLower then c.toNat - 87
  else c.toNat - 55

/-- `int(s, 16)` on the well-formed replies OpenOCD produces: an optional
`0x` prefix followed by hexadecimal digits. -/
def hex_val (s : String) : Nat :=
  let chars := if s.startsWith "0x" then s.toList.drop 2 else s.toList
  chars.foldl (fun acc c => 16 * acc + hex_digit_val c) 0

/-- `OpenOcd.read_register` from `openocd.py`, as a function of the already
split reply `raw = self.send('reg %u' % register).split(': ')`: a reply with
fewer than two parts has no value and yields `None`; otherwise the part
after the register name is parsed as hexadecimal. -/
def read_register (raw : List String) : Option Nat :=
  if raw.length < 2 then none
  else some (hex_val (raw.getD 1 ""))

/-- `OpenOcd.read_registers` from `openocd.py`, with the session abstracted
as the split reply returned for each register: read each register in order,
returning `None` as soon as one read yields `None`, and otherwise the
register/value pairs in insertion order. -/
def read_registers (session : Register → List String) :
    List Register → Option (List (Register × Nat))
  | [] => some []
  | r :: rest =>
    match read_register (session r) with
    | none => none
    | some value =>
      match read_registers session rest with
      | none => none
      | some result => some ((r, value) :: result)

/-- The loop `for reg in result: register_list[registers.index(reg)] =
result[reg]` of `OpenOcd.read_register_list`. -/
def fill_register_list (registers : List Register) :
    List (Register × Nat) → List (Option Nat) → List (Option Nat)
  | [], register_list => register_list
  | rv :: rest, register_list =>
    fill_register_list registers rest
      (register_list.set (registers.indexOf rv.1) (some rv.2))

/-- `OpenOcd.read_register_list` from `openocd.py`. When any register read
fails, `read_registers` returns `None` and the subsequent `for reg in
result:` iterates over `None`, which in Python raises a `TypeError`; the
raise is embedded as `Except.error`. -/
def read_register_list (session : Register → List String)
    (registers : List Register) : Except String (List (Option Nat)) :=
  match read_registers session registers with
  | none => Except.error "TypeError: NoneType object is not iterable"
  | some result =>
    Except.ok (fill_register_list registers result
      (List.replicate registers.length none))

/-- `recover_pc(openocd)` from `main.py` including its register reads: read
PC and PSR through `read_register_list` and combine them with the pure
Thumb-bit reconstruction; a `None` unpacked into the bitwise `or` would also
raise a `TypeError` in Python. -/
def recover_pc_run (session : Register → List String) : Except String Nat :=
  match read_register_list session [Register.PC, Register.PSR] with
  | Except.error e => Except.error e
  | Except.ok values =>
    match values with
    | [some pc, some xpsr] => Except.ok (recover_pc pc xpsr)
    | _ => Except.error "TypeError: unsupported operand type"

/-- C8 evaluation: a reply without a value part makes `read_register` yield
`None` as the claim says, but the multi-register read used by the Vector
Recoverer then raises a `TypeError` instead of propagating the unavailable
outcome — `read_registers` returns `None` and `read_register_list` iterates
over it. A well-formed reply, by contrast, yields a value. -/
theorem C8_unavailable_read_raises :
    read_register [ "" ] = none ∧
    read_register [ "pc", "0x20000144" ] = some (hex_val "0x20000144") ∧
    read_register_list (fun _ => [ "" ]) [Register.PC, Register.PSR]
      = Except.error "TypeError: NoneType object is not iterable" ∧
    recover_pc_run (fun _ => [ "" ])
      = Except.error "TypeError: NoneType object is not iterable" :=
  ⟨rfl, rfl, rfl, rfl⟩

/-- The resolution path the Extraction Driver in `__main__` takes for one
address: a halted-state SP read at address 0, a halted-state PC/PSR recovery
at address 4, an unavailable word when the mapped exception number is
inaccessible, and otherwise the Exciter followed by the Recoverer. -/
inductive DriverStep where
  | resetReadSP
  | resetRecoverPC
  | unavailable
  | excite (vtor_address exception_number : Nat)
deriving DecidableEq

/-- The branch of the extraction loop body in `__main__` of `main.py` taken
for `address`, mirroring its `if/elif` chain. -/
def driver_action (num_exceptions address : Nat) : DriverStep :=
  let ve := calculate_vtor_exc address num_exceptions
  if address = 0x00000000 then DriverStep.resetReadSP
  else if address = 0x00000004 then DriverStep.resetRecoverPC
  else if ve.2 ∈ INACCESSIBLE_EXC_NUMBERS then DriverStep.unavailable
  else DriverStep.excite ve.1 ve.2

/-- The value the extraction loop recovers at `address`, with the probed
target abstracted as `device : Nat → Option Nat` (the value the relevant
register reads produce for that address, `none` when unavailable): an
inaccessible slot is `None`, every other branch reads the device. -/
def recover_word (device : Nat → Option Nat) (num_exceptions address : Nat) :
    Option Nat :=
  match driver_action num_exceptions address with
  | DriverStep.unavailable => none
  | _ => device address

/-- The ordered output of the extraction loop of `__main__` over
`range(start_address, start_address + length * WORD_SIZE, WORD_SIZE)`:
one `(address, value)` entry per word, where an unavailable word is skipped
under the omit policy (`--value skip`) and substituted with `skip_value`
otherwise. -/
def extraction_output (device : Nat → Option Nat)
    (num_exceptions start_address length : Nat) (skip : Bool)
    (skip_value : Nat) : List (Nat × Nat) :=
  (List.range length).filterMap (fun i =>
    let address := start_address + WORD_SIZE * i
    match recover_word device num_exceptions address with
    | some v => some (address, v)
    | none => if skip then none else some (address, skip_value))

/-- The sequence of resolution paths taken by one extraction run. -/
def driver_actions (num_exceptions start_address length : Nat) :
    List DriverStep :=
  (List.range length).map
    (fun i => driver_action num_exceptions (start_address + WORD_SIZE * i))

theorem extraction_literal_map (device : Nat → Option Nat)
    (N start sv : Nat) :
    ∀ L, (extraction_output device N start L false sv).map Prod.fst
      = (List.range L).map (fun i => start + 4 * i) := by
  intro L
  induction L with
  | zero => rfl
  | succ L ih =>
    show ((List.range (L + 1)).filterMap _).map Prod.fst = _
    rw [List.range_succ, List.filterMap_append, List.map_append,
        List.map_append]
    refine congrArg₂ _ ih ?_
    simp only [WORD_SIZE]
    cases h : recover_word device N (start + 4 * L) with
    | none => simp [List.filterMap, h]
    | some v => simp [List.filterMap, h]

theorem extraction_skip_map (device : Nat → Option Nat)
    (N start sv : Nat) :
    ∀ L, (extraction_output device N start L true sv).map Prod.fst
      = ((List.range L).filter
          (fun i => (recover_word device N (start + 4 * i)).isSome)).map
          (fun i => start + 4 * i) := by
  intro L
  induction L with
  | zero => rfl
  | succ L ih =>
    show ((List.range (L + 1)).filterMap _).map Prod.fst = _
    rw [List.range_succ, List.filterMap_append, List.map_append,
        List.filter_append, List.map_append]
    refine congrArg₂ _ ih ?_
    simp only [WORD_SIZE]
    cases h : recover_word device N (start + 4 * L) with
    | none => simp [List.filterMap, h]
    | some v => simp [List.filterMap, h]

/-- C5: for every request of `L` words from `start`, under the
literal-substitute policy the Driver emits exactly `L` results whose
addresses are exactly `start, start + 4, …, start + 4 * (L - 1)` in strictly
ascending order; under the omit policy it emits the same address sequence
with the unavailable words left out, order preserved and still strictly
ascending. -/
theorem C5_driver_order_and_coverage (device : Nat → Option Nat)
    (N start L sv : Nat) :
    ((extraction_output device N start L false sv).map Prod.fst
        = (List.range L).map (fun i => start + 4 * i)) ∧
    (extraction_output device N start L false sv).length = L ∧
    ((extraction_output device N start L false sv).map Prod.fst).Pairwise
      (· < ·) ∧
    ((extraction_output device N start L true sv).map Prod.fst
        = ((List.range L).filter
            (fun i => (recover_word device N (start + 4 * i)).isSome)).map
            (fun i => start + 4 * i)) ∧
    ((extraction_output device N start L true sv).map Prod.fst).Pairwise
      (· < ·) := by
  have hlit := extraction_literal_map device N start sv L
  have hskip := extraction_skip_map device N start sv L
  have hmono : ∀ a b : Nat, a < b → start + 4 * a < start + 4 * b := by
    intro a b hab
    omega
  refine ⟨hlit, ?_, ?_, hskip, ?_⟩
  · have := congrArg List.length hlit
    simpa using this
  · rw [hlit]
    exact List.Pairwise.map _ hmono (List.pairwise_lt_range L)
  · rw [hskip]
    refine List.Pairwise.map _ hmono ?_
    exact List.Pairwise.sublist (List.filter_sublist _)
      (List.pairwise_lt_range L)

/-- C9: whenever the requested range contains address 0 (word index `i` with
`start + 4 * i = 0`), the Driver resolves that word through the halted-state
SP read and never through the Exciter. -/
theorem C9_address_zero_uses_sp_read (N start L i : Nat) (hi : i < L)
    (h0 : start + 4 * i = 0) :
    (driver_actions N start L)[i]? = some DriverStep.resetReadSP ∧
    ∀ v e, (driver_actions N start L)[i]? ≠ some (DriverStep.excite v e) := by
  have hs : start + WORD_SIZE * i = 0 := by
    simp only [WORD_SIZE]
    omega
  unfold driver_actions
  rw [List.getElem?_map, List.getElem?_range hi]
  constructor
  · simp only [Option.map_some']
    rw [hs]
    rfl
  · intro v e hne
    simp only [Option.map_some'] at hne
    rw [hs] at hne
    have hact : driver_action N 0 = DriverStep.resetReadSP := rfl
    rw [hact] at hne
    exact absurd hne (by simp)

/-- Witness for C9: the request `start = 0`, `L = 1` contains address 0 at
index 0. -/
theorem C9_address_zero_uses_sp_read_witness :
    (driver_actions 16 0 1)[0]? = some DriverStep.resetReadSP ∧
    ∀ v e, (driver_actions 16 0 1)[0]? ≠ some (DriverStep.excite v e) :=
  C9_address_zero_uses_sp_read 16 0 1 0 (by omega) (by omega)

end Extractor
